import Mathlib

/-!
Shallow embedding of `src/scripts/compliance-checker.py` (repository
compliance checker): the rule provider, the per-repository inspection
checks, label application, the report aggregation arithmetic and the
responsible-user resolver, together with theorems about them.

Conventions of the embedding:
* GitHub API objects are modelled as records of the fields the script
  reads; an API call that may raise (and whose failure the script catches)
  is modelled as an `Option`-valued field (`none` = the call raised).
* Timestamps are integers (seconds on a common UTC basis, after the
  script's `tzinfo` normalisation); `timedelta.days` is floor division
  by 86400, i.e. `Int.fdiv`.
* Python lists/dicts become Lean lists / insertion-ordered association
  lists; `str.split()` splits on whitespace runs and drops empty pieces.
-/

namespace ComplianceChecker

/-- Branch data read by `check_branch_protection`: the `protected` flag and,
when the branch is protected, the result of `get_protection()` —
`none` if that call raised (swallowed), otherwise the truthiness of
`required_status_checks`. -/
structure Branch where
  isProtected : Bool
  requiredStatusChecks : Option Bool
  deriving Repr

/-- The fields of a repository object that the compliance checks read.
`contents path` is `repo.get_contents(path)`: `none` when the call raises
(file absent), `some c` with the decoded content otherwise.
`branches b` is `repo.get_branch(b)` (`none` = raised), and `topics` is
`repo.get_topics()` (`none` = raised, swallowed by the quality check). -/
structure Repo where
  name : String
  htmlUrl : String
  isPrivate : Bool
  size : Nat
  language : Option String
  description : Option String
  pushedAt : Option Int
  createdAt : Option Int
  defaultBranch : Option String
  archived : Bool
  contents : String → Option String
  branches : String → Option Branch
  topics : Option (List String)

/-- The `issues` dict built by `check_repository_compliance`: descriptive
metadata plus the two parallel lists the checks append to. -/
structure Issues where
  name : String
  url : String
  visibility : String
  violations : List String
  labels : List String
  size : Nat
  language : String
  lastPush : Option Int
  createdAt : Option Int
  defaultBranch : Option String
  archived : Bool
  deriving Repr

/-- The three naming regexes appearing in `get_compliance_rules`; the
matching functions below embed each literal pattern. -/
inductive NamingPattern
  | finastra   -- ^FD-[a-z0-9]+-[a-z0-9-]+$
  | arctiq     -- ^(a|e|t|p|action|collab)-[a-z0-9]+-[a-z0-9-]+$
  | generic    -- ^[a-z]+-[a-z0-9]+-[a-z0-9-]+$
  deriving Repr, DecidableEq

/-- A rules dict. `namePfx` models the `required_prefix` key and
`namePfxList` the `required_prefixes` key (at most one is present in
every dict `get_compliance_rules` returns). -/
structure Rules where
  namePfx : Option String
  namePfxList : Option (List String)
  namingPattern : NamingPattern
  description : String
  deriving Repr

/-- `get_compliance_rules(org_name)`. -/
def get_compliance_rules (orgName : String) : Rules :=
  if orgName = "finastra-demo" then
    { namePfx := some "FD-"
      namePfxList := none
      namingPattern := .finastra
      description := "Finastra Demo organization rules - all repos must start with FD-" }
  else if orgName.toLower = "arctiqteam" ∨ orgName.toLower = "arctiq-team" then
    { namePfx := none
      namePfxList := some ["a-", "e-", "t-", "p-", "action-", "collab-"]
      namingPattern := .arctiq
      description := "Arctiq Team organization rules - prefixed naming convention" }
  else
    { namePfx := none
      namePfxList := some ["a-", "e-", "t-", "p-"]
      namingPattern := .generic
      description := "Generic organization rules - standard prefixed naming" }

/-! ### Case-insensitive matching of the three naming regexes

The script matches with `re.match(pattern, name, re.IGNORECASE)`; all the
patterns are anchored `^...$`, so this is a full-prefix match from the
start that must also reach `$`.  Character classes below are the
case-insensitive readings of the classes in the regex literals. -/

/-- `[a-z]` under `re.IGNORECASE` (ASCII letters of either case). -/
def ciLetter (c : Char) : Bool :=
  ('a' ≤ c && c ≤ 'z') || ('A' ≤ c && c ≤ 'Z')

/-- `[a-z0-9]` under `re.IGNORECASE`. -/
def ciAlnum (c : Char) : Bool :=
  ciLetter c || ('0' ≤ c && c ≤ '9')

/-- `[a-z0-9-]` under `re.IGNORECASE`. -/
def ciAlnumDash (c : Char) : Bool :=
  ciAlnum c || c = '-'

/-- A literal pattern character under `re.IGNORECASE`. -/
def ciChar (p c : Char) : Bool :=
  p.toLower = c.toLower

/-- The common tail `[a-z0-9]+-[a-z0-9-]+$` of all three patterns.
`[a-z0-9]+` cannot contain a dash, so a successful match must place the
literal `-` at the first dash of the remaining input. -/
def matchTail (l : List Char) : Bool :=
  let b1 := l.takeWhile (fun c => c ≠ '-')
  b1 ≠ [] && b1.all ciAlnum &&
    (match l.drop b1.length with
     | _ :: b2 => b2 ≠ [] && b2.all ciAlnumDash
     | [] => false)

/-- Strip a case-insensitive literal from the front of the input,
returning the rest on success. -/
def ciStrip : List Char → List Char → Option (List Char)
  | [], l => some l
  | _ :: _, [] => none
  | p :: ps, c :: cs => if ciChar p c then ciStrip ps cs else none

/-- `re.match(pattern, name, re.IGNORECASE)` truthiness for the three
pattern literals of `get_compliance_rules`. -/
def matchNamingPattern : NamingPattern → List Char → Bool
  | .finastra, l =>
      match ciStrip ['F', 'D', '-'] l with
      | some rest => matchTail rest
      | none => false
  | .arctiq, l =>
      ["a", "e", "t", "p", "action", "collab"].any fun alt =>
        match ciStrip alt.data l with
        | some ('-' :: rest) => matchTail rest
        | _ => false
  | .generic, l =>
      let b0 := l.takeWhile (fun c => c ≠ '-')
      b0 ≠ [] && b0.all ciLetter &&
        (match l.drop b0.length with
         | _ :: rest => matchTail rest
         | [] => false)

/-- Python `s.startswith(p)` (case-sensitive, exact prefix on the
character sequence). -/
def pyStartsWith (s p : String) : Bool :=
  p.data.isPrefixOf s.data

/-- `check_naming_convention(repo, rules, issues)`: the prefix half uses
`str.startswith` (case-sensitive); the pattern half uses `re.IGNORECASE`. -/
def check_naming_convention (repo : Repo) (rules : Rules) (issues : Issues) :
    Issues :=
  let issues :=
    match rules.namePfx with
    | some requiredPfx =>
        if ¬ pyStartsWith repo.name requiredPfx then
          { issues with
            violations := issues.violations ++
              [s!"Repository name must start with \"{requiredPfx}\""]
            labels := issues.labels ++ ["naming:missing-prefix"] }
        else issues
    | none =>
        match rules.namePfxList with
        | some requiredPfxs =>
            if ¬ requiredPfxs.any (fun p => pyStartsWith repo.name p) then
              let joined := ", ".intercalate requiredPfxs
              { issues with
                violations := issues.violations ++
                  [s!"Repository name must start with one of: {joined}"]
                labels := issues.labels ++ ["naming:missing-prefix"] }
            else issues
        | none => issues
  if ¬ matchNamingPattern rules.namingPattern repo.name.data then
    { issues with
      violations := issues.violations ++
        ["Repository name does not follow naming pattern"]
      labels := issues.labels ++ ["naming:non-compliant"] }
  else issues

/-! ### Check 2: required files -/

/-- The README candidate list of `check_required_files`, in source order. -/
def readme_files : List String :=
  ["README.md", "README.rst", "README.txt", "readme.md", "Readme.md"]

/-- Outcome of the README loop in `check_required_files`. -/
inductive ReadmeScan
  | found
  | tooShort (name : String)
  | absent
  deriving Repr, DecidableEq

/-- The README `for` loop: try candidates in order; a raising
`get_contents` means `continue`; the first candidate that exists decides
(`break` in both branches). -/
def scanReadme (repo : Repo) : List String → ReadmeScan
  | [] => .absent
  | n :: ns =>
      match repo.contents n with
      | some c => if 100 ≤ c.length then .found else .tooShort n
      | none => scanReadme repo ns

/-- LICENSE candidates of `check_required_files`. -/
def license_files : List String :=
  ["LICENSE", "LICENSE.md", "LICENSE.txt", "license", "License"]

/-- CODEOWNERS candidates of `check_required_files`. -/
def codeowners_locations : List String :=
  ["CODEOWNERS", ".github/CODEOWNERS", "docs/CODEOWNERS"]

/-- `check_required_files(repo, issues)`. -/
def check_required_files (repo : Repo) (issues : Issues) : Issues :=
  let issues :=
    match scanReadme repo readme_files with
    | .found => issues
    | .tooShort n =>
        { issues with
          violations := issues.violations ++
            [n ++ " file is too short (< 100 characters)"]
          labels := issues.labels ++ ["missing:readme"] }
    | .absent =>
        if ¬ issues.labels.any (fun l => pyStartsWith l "missing:readme") then
          { issues with
            violations := issues.violations ++ ["No README file found"]
            labels := issues.labels ++ ["missing:readme"] }
        else issues
  let issues :=
    match repo.contents ".gitignore" with
    | some _ => issues
    | none =>
        { issues with
          violations := issues.violations ++ ["No .gitignore file found"]
          labels := issues.labels ++ ["missing:gitignore"] }
  let issues :=
    if ¬ repo.isPrivate then
      if ¬ license_files.any (fun n => (repo.contents n).isSome) then
        { issues with
          violations := issues.violations ++
            ["No LICENSE file found (required for public repositories)"]
          labels := issues.labels ++ ["missing:license"] }
      else issues
    else issues
  if ¬ codeowners_locations.any (fun n => (repo.contents n).isSome) then
    { issues with
      violations := issues.violations ++ ["No CODEOWNERS file found"]
      labels := issues.labels ++ ["missing:codeowners"] }
  else issues

/-! ### Checks 3–6 -/

/-- `check_branch_protection(repo, issues)`.  `if repo.default_branch:` is
Python truthiness, so `None` and the empty string both skip the check. -/
def check_branch_protection (repo : Repo) (issues : Issues) : Issues :=
  match repo.defaultBranch with
  | none => issues
  | some b =>
      if b = "" then issues
      else
        match repo.branches b with
        | none =>
            { issues with
              violations := issues.violations ++
                [s!"Cannot access default branch: {b}"]
              labels := issues.labels ++ ["security:branch-access-error"] }
        | some br =>
            if ¬ br.isProtected then
              { issues with
                violations := issues.violations ++
                  ["Default branch has no protection rules"]
                labels := issues.labels ++ ["security:no-branch-protection"] }
            else
              match br.requiredStatusChecks with
              | none => issues
              | some rsc =>
                  if ¬ rsc then
                    { issues with
                      violations := issues.violations ++
                        ["Branch protection lacks required status checks"]
                      labels := issues.labels ++
                        ["security:insufficient-protection"] }
                  else issues

/-- `check_repository_description(repo, issues)`: `not repo.description`
is Python truthiness (`None` or empty). -/
def check_repository_description (repo : Repo) (issues : Issues) : Issues :=
  let bad :=
    match repo.description with
    | none => true
    | some d => d = "" || d.trim.length < 10
  if bad then
    { issues with
      violations := issues.violations ++
        ["Repository description missing or too short (< 10 characters)"]
      labels := issues.labels ++ ["missing:description"] }
  else issues

/-- `(now - pushed_at).days` for timestamps in seconds: Python
`timedelta.days` floors towards −∞, i.e. `Int.fdiv`. -/
def daysSincePush (now pushedAt : Int) : Int :=
  (now - pushedAt).fdiv 86400

/-- `check_activity_status(repo, issues)`; `now` is `datetime.utcnow()`
and both timestamps are on the common (naive-UTC) basis the script
normalises to. -/
def check_activity_status (now : Int) (repo : Repo) (issues : Issues) :
    Issues :=
  match repo.pushedAt with
  | some pushedAt =>
      let d := daysSincePush now pushedAt
      if 365 < d then
        { issues with
          violations := issues.violations ++
            [s!"Repository inactive for {d} days (1+ years)"]
          labels := issues.labels ++ ["activity:archived"] }
      else if 180 < d then
        { issues with
          violations := issues.violations ++
            [s!"Repository stale for {d} days (6+ months)"]
          labels := issues.labels ++ ["activity:stale"] }
      else issues
  | none =>
      { issues with
        violations := issues.violations ++
          ["Repository has never been pushed to"]
        labels := issues.labels ++ ["activity:never-used"] }

/-- `check_repository_quality(repo, issues)`: size thresholds, then the
best-effort topics check (a raising `get_topics` is swallowed). -/
def check_repository_quality (repo : Repo) (issues : Issues) : Issues :=
  let issues :=
    if repo.size = 0 then
      { issues with
        violations := issues.violations ++ ["Repository appears to be empty"]
        labels := issues.labels ++ ["quality:empty"] }
    else if repo.size < 10 then
      { issues with
        violations := issues.violations ++
          ["Repository has minimal content (< 10KB)"]
        labels := issues.labels ++ ["quality:minimal"] }
    else issues
  match repo.topics with
  | some topics =>
      if topics.length = 0 then
        { issues with
          violations := issues.violations ++
            ["Repository has no topics for discoverability"]
          labels := issues.labels ++ ["missing:topics"] }
      else issues
  | none => issues

/-- `check_repository_compliance(repo, rules)`: builds the metadata
record, short-circuits archived repositories, otherwise runs the six
checks in order. -/
def check_repository_compliance (now : Int) (repo : Repo) (rules : Rules) :
    Issues :=
  let issues : Issues :=
    { name := repo.name
      url := repo.htmlUrl
      visibility := if repo.isPrivate then "private" else "public"
      violations := []
      labels := []
      size := repo.size
      language := repo.language.getD "Unknown"
      lastPush := repo.pushedAt
      createdAt := repo.createdAt
      defaultBranch := repo.defaultBranch
      archived := repo.archived }
  if repo.archived then issues
  else
    let issues := check_naming_convention repo rules issues
    let issues := check_required_files repo issues
    let issues := check_branch_protection repo issues
    let issues := check_repository_description repo issues
    let issues := check_activity_status now repo issues
    check_repository_quality repo issues

/-! ### Label synchronisation (`apply_compliance_labels`) -/

/-- A GitHub issue label on a repository. -/
structure GhLabel where
  name : String
  color : String
  labelDescription : String
  deriving Repr, DecidableEq

/-- The `label_colors` table of `apply_compliance_labels`. -/
def label_colors : List (String × String) :=
  [("naming:missing-prefix", "f66a0a"),
   ("naming:non-compliant", "f66a0a"),
   ("missing:readme", "d73a49"),
   ("missing:gitignore", "d73a49"),
   ("missing:license", "fbca04"),
   ("missing:codeowners", "fbca04"),
   ("missing:description", "fbca04"),
   ("missing:topics", "fbca04"),
   ("security:no-branch-protection", "d73a49"),
   ("security:insufficient-protection", "f66a0a"),
   ("security:branch-access-error", "6a737d"),
   ("activity:stale", "f66a0a"),
   ("activity:archived", "24292e"),
   ("activity:never-used", "6a737d"),
   ("quality:empty", "6a737d"),
   ("quality:minimal", "6a737d")]

/-- `label_colors.get(label_name, '6a737d')`. -/
def labelColorFor (labelName : String) : String :=
  match label_colors.lookup labelName with
  | some c => c
  | none => "6a737d"

/-- The label `create_label` would create for a desired name:
catalog colour and the fixed description template. -/
def mkGhLabel (labelName : String) : GhLabel :=
  { name := labelName
    color := labelColorFor labelName
    labelDescription :=
      let pretty := labelName.replace ":" " - "
      s!"Compliance issue: {pretty}" }

/-- One iteration of the `for label_name in labels` loop of
`apply_compliance_labels` on the repository's label state (the loop
re-reads `repo.get_labels()` each iteration, so earlier creations are
visible): create if no case-sensitive exact name match, and count a
success either way. -/
def applyLabelStep (state : List GhLabel) (labelName : String) :
    List GhLabel :=
  if labelName ∈ state.map GhLabel.name then state
  else state ++ [mkGhLabel labelName]

/-- `apply_compliance_labels(repo, labels)` as a state transformer:
returns the repository's label state after the loop together with
`success_count` (in the exception-free executions modelled here every
iteration counts one success). -/
def apply_compliance_labels (state : List GhLabel) (labels : List String) :
    List GhLabel × Nat :=
  if labels = [] then (state, 0)
  else labels.foldl (fun acc l => (applyLabelStep acc.1 l, acc.2 + 1)) (state, 0)

/-! ### Report aggregation (`generate_compliance_report`) -/

/-- Increment an insertion-ordered counter dict
(`d[k] = d.get(k, 0) + 1`). -/
def incrCount (m : List (String × Nat)) (k : String) : List (String × Nat) :=
  match m with
  | [] => [(k, 1)]
  | (k', v) :: rest =>
      if k' = k then (k', v + 1) :: rest else (k', v) :: incrCount rest k

/-- The maximal non-whitespace tokens of a character list, in order
(the behaviour of Python `str.split()` with no argument: split on
whitespace runs, dropping empty pieces). -/
def wsTokens : List Char → List (List Char)
  | [] => []
  | c :: cs =>
      let rest := wsTokens cs
      if c.isWhitespace then rest
      else
        match cs, rest with
        | [], _ => [[c]]
        | c2 :: _, t :: ts =>
            if c2.isWhitespace then [c] :: t :: ts else (c :: t) :: ts
        | _ :: _, [] => [[c]]

/-- Python `str.split()` (no argument). -/
def pySplitWs (s : String) : List String :=
  (wsTokens s.data).map List.asString

/-- Python `str.lower()` (character-wise, as for the ASCII strings in
play). -/
def pyLower (s : String) : String :=
  (s.data.map Char.toLower).asString

/-- `violation.split()[0].lower()`: `none` models the `IndexError` raised
when the violation string has no non-whitespace character. -/
def violationCategory (v : String) : Option String :=
  match pySplitWs v with
  | [] => none
  | w :: _ => some (pyLower w)

/-- Fold one result's violations into the category counter, propagating
the `IndexError` case. -/
def addCategories (m : List (String × Nat)) : List String →
    Option (List (String × Nat))
  | [] => some m
  | v :: vs =>
      match violationCategory v with
      | none => none
      | some c => addCategories (incrCount m c) vs

/-- The `issue_categories` dict of `generate_compliance_report`:
first whitespace token of each violation, lower-cased, counted over all
results (in iteration order). -/
def issueCategories : List (String × Nat) → List Issues →
    Option (List (String × Nat))
  | m, [] => some m
  | m, issue :: rest =>
      match addCategories m issue.violations with
      | none => none
      | some m' => issueCategories m' rest

/-- The `label_counts` dict of `generate_compliance_report`. -/
def labelCounts (results : List Issues) : List (String × Nat) :=
  results.foldl (fun m issue => issue.labels.foldl incrCount m) []

/-- Exact floor of a rational, computed on its reduced representation
(`Int.fdiv` is floor division). -/
def floorQ (q : ℚ) : ℤ := q.num.fdiv (q.den : ℤ)

/-- Round a rational to the nearest integer, ties to even — the
semantics of Python's `round` on an exact value. -/
def roundHalfEven (q : ℚ) : ℤ :=
  let f := floorQ q
  let r := q - (f : ℚ)
  if r < 1/2 then f
  else if 1/2 < r then f + 1
  else if f % 2 = 0 then f else f + 1

/-- `round(x, 1)` on an exact value: round `10·x` half-to-even, divide
by 10. -/
def round1 (q : ℚ) : ℚ := (roundHalfEven (10 * q) : ℚ) / 10

/-- The unrounded `compliance_rate` computed at the top of
`generate_compliance_report` (exact-rational idealisation of the float
arithmetic): `(total_repos - len(issues)) / total_repos * 100` when
`total_repos > 0`, else `100`. -/
def complianceRate (numIssues totalRepos : Nat) : ℚ :=
  if 0 < totalRepos then
    ((totalRepos : ℚ) - (numIssues : ℚ)) / (totalRepos : ℚ) * 100
  else 100

/-- The `summary` block of the report dict. -/
structure ReportSummary where
  totalRepositories : Nat
  compliantRepositories : Int
  nonCompliantRepositories : Nat
  complianceRatePercent : ℚ
  deriving Repr

/-- The `summary` block built by `generate_compliance_report`:
`compliant_repos = total_repos - len(issues)` and the rate rounded to one
decimal. -/
def reportSummary (results : List Issues) (totalRepos : Nat) :
    ReportSummary :=
  { totalRepositories := totalRepos
    compliantRepositories := (totalRepos : Int) - (results.length : Int)
    nonCompliantRepositories := results.length
    complianceRatePercent := round1 (complianceRate results.length totalRepos) }

/-! ### Responsible-user resolution (`get_responsible_users`) -/

/-- A collaborator as read by tier 1: login plus the `admin` and
`maintain` permission flags. -/
structure Collab where
  login : String
  admin : Bool
  maintain : Bool
  deriving Repr

/-- The inputs `get_responsible_users` consults.  Each tier's API access
may raise (the function catches and moves on): `none` models a raising
call.  `commits` holds each recent commit's author login
(`commit.author.login`), `none` for a commit without a linked author. -/
structure RepoPeople where
  collaborators : Option (List Collab)
  codeowners : String → Option String
  commits : Option (List (Option String))
  owner : Option String

/-- A character of the CODEOWNERS owner regex class `[a-zA-Z0-9\-_]`. -/
def ownerChar (c : Char) : Bool :=
  c.isAlpha || c.isDigit || c = '-' || c = '_'

/-- `re.findall(r'@([a-zA-Z0-9\-_]+)', content)`: left-to-right
non-overlapping matches, each an `@` followed by a maximal non-empty run
of class characters. -/
def findOwnerTokens : List Char → List String
  | [] => []
  | '@' :: rest =>
      let tok := rest.takeWhile ownerChar
      if tok = [] then findOwnerTokens rest
      else String.mk tok :: findOwnerTokens (rest.drop tok.length)
  | _ :: rest => findOwnerTokens rest
termination_by l => l.length
decreasing_by
  · simp
  · simp only [List.length_drop, List.length_cons]
    omega
  · simp

/-- The owner-parsing of tier 2: regex tokens, then the
`'/' not in owner` filter (the regex class cannot match `/`, so the
filter keeps everything, but it is kept here as in the source). -/
def parseIndividualOwners (content : String) : List String :=
  (findOwnerTokens content.data).filter (fun o => ¬ o.contains '/')

/-- Tier 2's `for location in codeowners_locations` loop:
a raising `get_contents` means `continue`; the first location whose
parsed individual-owner list is non-empty contributes its first two
owners (`break`); an existing file with no owner tokens falls through to
the next location. -/
def codeownersScan (people : RepoPeople) : List String → List String
  | [] => []
  | loc :: locs =>
      match people.codeowners loc with
      | none => codeownersScan people locs
      | some content =>
          let owners := parseIndividualOwners content
          if owners = [] then codeownersScan people locs
          else owners.take 2

/-- Tier 3's committer ranking: count commits per linked author over the
10 most recent commits, then sort descending by count
(`sorted(..., reverse=True)`, stable) and keep the top 3 logins. -/
def topCommitters (commits : List (Option String)) : List String :=
  let counts := (commits.take 10).foldl
    (fun m a => match a with | some login => incrCount m login | none => m) []
  ((counts.mergeSort (fun a b => b.2 ≤ a.2)).map Prod.fst).take 3

/-- The accumulated `responsible_users` list before deduplication:
tier 1 (admins, then maintainers while under 2), tier 2 (CODEOWNERS,
only while under 2), tier 3 (recent committers, only while under 3,
skipping duplicates), tier 4 (owner, only when still empty). -/
def gatherResponsibleUsers (people : RepoPeople) : List String :=
  let ru : List String := []
  let ru :=
    match people.collaborators with
    | none => ru
    | some collaborators =>
        let admins := (collaborators.filter (fun c => c.admin)).map Collab.login
        let maintainers :=
          (collaborators.filter (fun c => ¬ c.admin ∧ c.maintain)).map Collab.login
        let ru := if admins ≠ [] then ru ++ admins.take 2 else ru
        if maintainers ≠ [] ∧ ru.length < 2 then ru ++ maintainers.take 2 else ru
  let ru :=
    if ru.length < 2 then ru ++ codeownersScan people codeowners_locations
    else ru
  let ru :=
    if ru.length < 3 then
      match people.commits with
      | none => ru
      | some commits =>
          (topCommitters commits).foldl
            (fun acc committer =>
              if committer ∉ acc ∧ acc.length < 3 then acc ++ [committer]
              else acc) ru
    else ru
  if ru = [] then
    match people.owner with
    | some ownerLogin => if ownerLogin ∉ ru then ru ++ [ownerLogin] else ru
    | none => ru
  else ru

/-- The final dedup loop: keep the first occurrence of each user,
preserving order. -/
def dedupAux (acc : List String) : List String → List String
  | [] => acc
  | u :: us => if u ∈ acc then dedupAux acc us else dedupAux (acc ++ [u]) us

/-- `get_responsible_users(repo, github_client)` in the exception-free
executions modelled by `RepoPeople`: gather by tiers, dedup preserving
first-seen order, cap at 3. -/
def get_responsible_users (people : RepoPeople) : List String :=
  (dedupAux [] (gatherResponsibleUsers people)).take 3

/-! ## Theorems -/

/-- A repository snapshot with only a name and otherwise inert accessors,
used to instantiate theorems at concrete inputs. -/
def plainRepo (name : String) : Repo :=
  { name := name
    htmlUrl := "https://example.invalid/" ++ name
    isPrivate := false
    size := 0
    language := none
    description := none
    pushedAt := none
    createdAt := none
    defaultBranch := some "main"
    archived := false
    contents := fun _ => none
    branches := fun _ => none
    topics := none }

/-- C1: for every repository snapshot with the archived flag set, the
inspection `check_repository_compliance` returns a result whose
violations list and labels list are both empty, for any name, files,
branch protection, description, activity or size — checks 1–6 never
run. -/
theorem archived_inspection_is_empty (now : Int) (repo : Repo)
    (rules : Rules) (h : repo.archived = true) :
    (check_repository_compliance now repo rules).violations = [] ∧
    (check_repository_compliance now repo rules).labels = [] := by
  simp [check_repository_compliance, h]

/-- Witness for C1: a concrete archived repository with hostile other
attributes (size 0, no files, no description, never pushed) still comes
back with no violations and no labels. -/
theorem archived_inspection_is_empty_witness :
    ({ plainRepo "bad name" with archived := true } : Repo).archived = true ∧
    (check_repository_compliance 0 { plainRepo "bad name" with archived := true }
        (get_compliance_rules "finastra-demo")).violations = [] ∧
    (check_repository_compliance 0 { plainRepo "bad name" with archived := true }
        (get_compliance_rules "finastra-demo")).labels = [] :=
  ⟨rfl,
   (archived_inspection_is_empty 0 _ _ rfl).1,
   (archived_inspection_is_empty 0 _ _ rfl).2⟩

/-! Per-check balance: each check appends equally many entries to
`violations` and to `labels` (stated in cross form so it composes
without subtraction). -/

theorem naming_balanced (repo : Repo) (rules : Rules) (i : Issues) :
    (check_naming_convention repo rules i).violations.length +
      i.labels.length =
    (check_naming_convention repo rules i).labels.length +
      i.violations.length := by
  unfold check_naming_convention
  repeat' split
  all_goals simp_arith

theorem files_balanced (repo : Repo) (i : Issues) :
    (check_required_files repo i).violations.length + i.labels.length =
    (check_required_files repo i).labels.length + i.violations.length := by
  unfold check_required_files
  repeat' split
  all_goals simp_arith

theorem branch_balanced (repo : Repo) (i : Issues) :
    (check_branch_protection repo i).violations.length + i.labels.length =
    (check_branch_protection repo i).labels.length + i.violations.length := by
  unfold check_branch_protection
  repeat' split
  all_goals simp_arith

theorem descr_balanced (repo : Repo) (i : Issues) :
    (check_repository_description repo i).violations.length +
      i.labels.length =
    (check_repository_description repo i).labels.length +
      i.violations.length := by
  unfold check_repository_description
  split
  · simp_arith
  · dsimp only
    split <;> simp_arith

theorem activity_balanced (now : Int) (repo : Repo) (i : Issues) :
    (check_activity_status now repo i).violations.length + i.labels.length =
    (check_activity_status now repo i).labels.length + i.violations.length := by
  unfold check_activity_status
  split
  · dsimp only
    split
    · simp_arith
    · split <;> simp_arith
  · simp_arith

theorem quality_balanced (repo : Repo) (i : Issues) :
    (check_repository_quality repo i).violations.length + i.labels.length =
    (check_repository_quality repo i).labels.length + i.violations.length := by
  unfold check_repository_quality
  repeat' split
  all_goals simp_arith

/-- Chaining the six balance facts through the check pipeline. -/
theorem pipeline_balanced (now : Int) (repo : Repo) (rules : Rules)
    (i : Issues) (h : i.violations.length = i.labels.length) :
    (check_repository_quality repo
      (check_activity_status now repo
        (check_repository_description repo
          (check_branch_protection repo
            (check_required_files repo
              (check_naming_convention repo rules i)))))).violations.length =
    (check_repository_quality repo
      (check_activity_status now repo
        (check_repository_description repo
          (check_branch_protection repo
            (check_required_files repo
              (check_naming_convention repo rules i)))))).labels.length := by
  have h1 := naming_balanced repo rules i
  have h2 := files_balanced repo (check_naming_convention repo rules i)
  have h3 := branch_balanced repo
    (check_required_files repo (check_naming_convention repo rules i))
  have h4 := descr_balanced repo
    (check_branch_protection repo
      (check_required_files repo (check_naming_convention repo rules i)))
  have h5 := activity_balanced now repo
    (check_repository_description repo
      (check_branch_protection repo
        (check_required_files repo
          (check_naming_convention repo rules i))))
  have h6 := quality_balanced repo
    (check_activity_status now repo
      (check_repository_description repo
        (check_branch_protection repo
          (check_required_files repo
            (check_naming_convention repo rules i)))))
  omega

/-- C5: the inspection result has violations and labels lists of equal
length, and every individual check appends exactly as many labels as
violations (each append site adds one of each, in lockstep), from any
starting state. -/
theorem inspection_violations_labels_lockstep (now : Int) (repo : Repo)
    (rules : Rules) :
    ((check_repository_compliance now repo rules).violations.length =
      (check_repository_compliance now repo rules).labels.length) ∧
    (∀ i : Issues,
      (check_naming_convention repo rules i).violations.length +
          i.labels.length =
        (check_naming_convention repo rules i).labels.length +
          i.violations.length ∧
      (check_required_files repo i).violations.length + i.labels.length =
        (check_required_files repo i).labels.length + i.violations.length ∧
      (check_branch_protection repo i).violations.length + i.labels.length =
        (check_branch_protection repo i).labels.length + i.violations.length ∧
      (check_repository_description repo i).violations.length +
          i.labels.length =
        (check_repository_description repo i).labels.length +
          i.violations.length ∧
      (check_activity_status now repo i).violations.length + i.labels.length =
        (check_activity_status now repo i).labels.length +
          i.violations.length ∧
      (check_repository_quality repo i).violations.length + i.labels.length =
        (check_repository_quality repo i).labels.length +
          i.violations.length) := by
  constructor
  · by_cases h : repo.archived
    · simp [check_repository_compliance, h]
    · have h' : repo.archived = false := by simpa using h
      simp only [check_repository_compliance, h', Bool.false_eq_true,
        if_false]
      exact pipeline_balanced now repo rules _ rfl
  · intro i
    exact ⟨naming_balanced repo rules i, files_balanced repo i,
      branch_balanced repo i, descr_balanced repo i,
      activity_balanced now repo i, quality_balanced repo i⟩

/-- C7: the size part of the Quality check emits the `empty` violation
(label `quality:empty`) exactly when `sizeKB = 0` and the `minimal`
violation (label `quality:minimal`) exactly when `0 < sizeKB < 10`; in
particular a size-0 repository always gets `empty` and never `minimal`.
Stated as exact occurrence counts on the result, so the claim holds with
no hypothesis on the incoming state. -/
theorem quality_empty_minimal_exact (repo : Repo) (issues : Issues) :
    ((check_repository_quality repo issues).labels.count "quality:empty" =
      issues.labels.count "quality:empty" +
        (if repo.size = 0 then 1 else 0)) ∧
    ((check_repository_quality repo issues).labels.count "quality:minimal" =
      issues.labels.count "quality:minimal" +
        (if 0 < repo.size ∧ repo.size < 10 then 1 else 0)) ∧
    ((check_repository_quality repo issues).violations.count
        "Repository appears to be empty" =
      issues.violations.count "Repository appears to be empty" +
        (if repo.size = 0 then 1 else 0)) ∧
    ((check_repository_quality repo issues).violations.count
        "Repository has minimal content (< 10KB)" =
      issues.violations.count "Repository has minimal content (< 10KB)" +
        (if 0 < repo.size ∧ repo.size < 10 then 1 else 0)) := by
  unfold check_repository_quality
  repeat' split
  all_goals simp_all [List.count_singleton]

/-- A minimal concrete `Issues` record for instantiating theorems. -/
def issues0 : Issues :=
  { name := "r"
    url := "u"
    visibility := "public"
    violations := []
    labels := []
    size := 0
    language := "Unknown"
    lastPush := none
    createdAt := none
    defaultBranch := none
    archived := false }

/-- C4: the Activity check is determined by the last-push timestamp,
with "days before now" the whole-day difference the code computes
(`timedelta.days`, floor division by 86400) on the common UTC basis:
no push at all appends exactly the never-pushed pair
(`activity:never-used`); more than 365 days appends exactly the
archived-tier pair; more than 180 and at most 365 days appends exactly
the stale-tier pair; at most 180 days leaves the result unchanged. -/
theorem activity_tiers (now : Int) (repo : Repo) (issues : Issues) :
    (repo.pushedAt = none →
      check_activity_status now repo issues =
        { issues with
          violations := issues.violations ++
            ["Repository has never been pushed to"]
          labels := issues.labels ++ ["activity:never-used"] }) ∧
    (∀ p, repo.pushedAt = some p →
      (365 < daysSincePush now p →
        check_activity_status now repo issues =
          { issues with
            violations := issues.violations ++
              [s!"Repository inactive for {daysSincePush now p} days (1+ years)"]
            labels := issues.labels ++ ["activity:archived"] }) ∧
      (180 < daysSincePush now p → daysSincePush now p ≤ 365 →
        check_activity_status now repo issues =
          { issues with
            violations := issues.violations ++
              [s!"Repository stale for {daysSincePush now p} days (6+ months)"]
            labels := issues.labels ++ ["activity:stale"] }) ∧
      (daysSincePush now p ≤ 180 →
        check_activity_status now repo issues = issues)) := by
  refine ⟨fun h => by simp [check_activity_status, h], fun p hp => ⟨?_, ?_, ?_⟩⟩
  · intro h1
    simp [check_activity_status, hp, h1]
  · intro h1 h2
    have h3 : ¬ (365 : Int) < daysSincePush now p := by omega
    simp [check_activity_status, hp, h1, h3]
  · intro h1
    have h2 : ¬ (365 : Int) < daysSincePush now p := by omega
    have h3 : ¬ (180 : Int) < daysSincePush now p := by omega
    simp [check_activity_status, hp, h2, h3]

/-- Witness for C4: a repository last pushed exactly 400 whole days ago
receives exactly the archived-tier violation/label pair. -/
theorem activity_tiers_witness :
    (365 : Int) < daysSincePush (400 * 86400) 0 ∧
    check_activity_status (400 * 86400)
        { plainRepo "r" with pushedAt := some 0 } issues0 =
      { issues0 with
        violations := ["Repository inactive for 400 days (1+ years)"]
        labels := ["activity:archived"] } := by
  refine ⟨by decide, ?_⟩
  have h := (activity_tiers (400 * 86400)
    { plainRepo "r" with pushedAt := some 0 } issues0).2 0 rfl
  have h400 : daysSincePush (400 * 86400) 0 = 400 := by decide
  have := h.1 (by decide)
  rw [this, h400]
  rfl

/-- A string obtained by appending `b` cannot equal a string that does
not end in `b`. -/
theorem append_ne_of_not_suffix {b c : String} (a : String)
    (h : ¬ b.data <:+ c.data) : a ++ b ≠ c := by
  intro he
  have hd := congrArg String.data he
  rw [String.data_append] at hd
  exact h ⟨a.data, hd⟩

/-- C3: the README check tries the candidate filenames in order and stops
at the first one that exists: a first-found file of length ≥ 100 adds no
README violation; a shorter first-found file adds exactly one too-short
violation with label `missing:readme` without consulting the remaining
candidates; no candidate at all adds exactly one
`No README file found` violation with label `missing:readme`.  The
incoming state is assumed to carry no `missing:readme`-style label, as
in the inspection pipeline. -/
theorem readme_first_match_short_circuit (repo : Repo) (issues : Issues)
    (hin : issues.labels.all (fun l => ¬ pyStartsWith l "missing:readme")) :
    (∀ n ns c, repo.contents n = some c →
      scanReadme repo (n :: ns) =
        if 100 ≤ c.length then .found else .tooShort n) ∧
    (scanReadme repo readme_files = .found →
      (check_required_files repo issues).labels.count "missing:readme" =
        issues.labels.count "missing:readme") ∧
    (∀ n, scanReadme repo readme_files = .tooShort n →
      (check_required_files repo issues).labels.count "missing:readme" =
        issues.labels.count "missing:readme" + 1 ∧
      (check_required_files repo issues).violations.count
          (n ++ " file is too short (< 100 characters)") =
        issues.violations.count
          (n ++ " file is too short (< 100 characters)") + 1 ∧
      (check_required_files repo issues).violations.count
          "No README file found" =
        issues.violations.count "No README file found") ∧
    (scanReadme repo readme_files = .absent →
      (check_required_files repo issues).labels.count "missing:readme" =
        issues.labels.count "missing:readme" + 1 ∧
      (check_required_files repo issues).violations.count
          "No README file found" =
        issues.violations.count "No README file found" + 1) := by
  refine ⟨fun n ns c h => by simp [scanReadme, h], ?_, ?_, ?_⟩
  · intro hscan
    unfold check_required_files
    rw [hscan]
    dsimp only
    repeat' split
    all_goals simp [List.count_singleton]
  · intro n hscan
    unfold check_required_files
    rw [hscan]
    dsimp only
    have hne : n ++ " file is too short (< 100 characters)" ≠
        "No .gitignore file found" := append_ne_of_not_suffix n (by decide)
    have hne2 : n ++ " file is too short (< 100 characters)" ≠
        "No LICENSE file found (required for public repositories)" :=
      append_ne_of_not_suffix n (by decide)
    have hne3 : n ++ " file is too short (< 100 characters)" ≠
        "No CODEOWNERS file found" := append_ne_of_not_suffix n (by decide)
    have hne4 : n ++ " file is too short (< 100 characters)" ≠
        "No README file found" := append_ne_of_not_suffix n (by decide)
    have hne4' := Ne.symm hne4
    repeat' split
    all_goals
      simp [List.count_singleton, List.count_append, hne, hne2, hne3, hne4']
  · intro hscan
    unfold check_required_files
    rw [hscan]
    dsimp only
    have haux : ¬ issues.labels.any (fun l => pyStartsWith l "missing:readme") := by
      simp only [List.all_eq_true] at hin
      simp only [List.any_eq_true, not_exists]
      intro l hl
      exact absurd hl.2 (by simpa using hin l hl.1)
    rw [if_pos haux]
    repeat' split
    all_goals simp [List.count_singleton]

/-- A repository whose only file is a 5-character `README.md`. -/
def repoShortReadme : Repo :=
  { plainRepo "r" with
    contents := fun p => if p = "README.md" then some "short" else none }

/-- Witness for C3: with a 5-character `README.md` as the first existing
candidate, exactly one `missing:readme` label is added. -/
theorem readme_first_match_short_circuit_witness :
    (issues0.labels.all (fun l => ¬ pyStartsWith l "missing:readme") = true) ∧
    ((check_required_files repoShortReadme issues0).labels.count
        "missing:readme" =
      issues0.labels.count "missing:readme" + 1) :=
  ⟨by decide,
   ((readme_first_match_short_circuit repoShortReadme issues0
      (by decide)).2.2.1 "README.md" (by decide)).1⟩

/-- C10: in the Naming check the prefix half is case-sensitive while the
regex half matches with `re.IGNORECASE`: whenever the repository name
matches the rule set's naming pattern ignoring letter case, no
`naming:non-compliant` label is added; in particular the lower-cased
name `fd-payments-api` under the `finastra-demo` rules receives the
`naming:missing-prefix` label but not the pattern label. -/
theorem naming_pattern_case_insensitive :
    (∀ (rules : Rules) (repo : Repo) (issues : Issues),
      matchNamingPattern rules.namingPattern repo.name.data = true →
      (check_naming_convention repo rules issues).labels.count
          "naming:non-compliant" =
        issues.labels.count "naming:non-compliant") ∧
    ("naming:missing-prefix" ∈
      (check_naming_convention (plainRepo "fd-payments-api")
        (get_compliance_rules "finastra-demo") issues0).labels ∧
     "naming:non-compliant" ∉
      (check_naming_convention (plainRepo "fd-payments-api")
        (get_compliance_rules "finastra-demo") issues0).labels) := by
  constructor
  · intro rules repo issues hmatch
    unfold check_naming_convention
    rw [if_neg (by simp [hmatch])]
    repeat' split
    all_goals simp [List.count_singleton]
  · constructor <;> decide

/-- Witness for C10: the first conjunct applied at the concrete
lower-cased name `fd-payments-api`, whose pattern match (ignoring case)
succeeds, so no `naming:non-compliant` label is added. -/
theorem naming_pattern_case_insensitive_witness :
    matchNamingPattern
      (get_compliance_rules "finastra-demo").namingPattern
      (plainRepo "fd-payments-api").name.data = true ∧
    (check_naming_convention (plainRepo "fd-payments-api")
        (get_compliance_rules "finastra-demo") issues0).labels.count
        "naming:non-compliant" =
      issues0.labels.count "naming:non-compliant" :=
  ⟨by decide,
   naming_pattern_case_insensitive.1 (get_compliance_rules "finastra-demo")
     (plainRepo "fd-payments-api") issues0 (by decide)⟩

/-! Rounding facts for the compliance rate. -/

theorem floorQ_eq (q : ℚ) : floorQ q = ⌊q⌋ := by
  rw [floorQ, Rat.floor_def, Int.fdiv_eq_ediv _ (by positivity)]

theorem roundHalfEven_nonneg {q : ℚ} (h : 0 ≤ q) : 0 ≤ roundHalfEven q := by
  have hf : (0 : ℤ) ≤ ⌊q⌋ := Int.floor_nonneg.2 h
  simp only [roundHalfEven, floorQ_eq]
  repeat' split
  all_goals omega

theorem roundHalfEven_le {q : ℚ} {n : ℤ} (h : q ≤ (n : ℚ)) :
    roundHalfEven q ≤ n := by
  have hfn : ⌊q⌋ ≤ n := by
    have := Int.floor_le_floor h
    simpa using this
  simp only [roundHalfEven, floorQ_eq]
  split
  · omega
  · have hlt : ⌊q⌋ < n := by
      rcases lt_or_eq_of_le hfn with h' | h'
      · exact h'
      · exfalso
        have : q - (⌊q⌋ : ℚ) ≤ 0 := by
          rw [h']
          linarith
        simp only [not_lt] at *
        linarith
    repeat' split
    all_goals omega

/-- C2: for `t` scanned repositories and `n ≤ t` non-compliant results,
the compliance rate in the report summary equals
`(t − n) / t × 100` rounded to one decimal when `t > 0`, equals exactly
`100` when `t = 0`, and always lies in `[0, 100]` (exact-rational model
of the float arithmetic at `generate_compliance_report`). -/
theorem compliance_rate_bounds (results : List Issues) (t : Nat)
    (h : results.length ≤ t) :
    (0 < t →
      (reportSummary results t).complianceRatePercent =
        round1 (((t : ℚ) - (results.length : ℚ)) / (t : ℚ) * 100)) ∧
    (t = 0 → (reportSummary results t).complianceRatePercent = 100) ∧
    0 ≤ (reportSummary results t).complianceRatePercent ∧
    (reportSummary results t).complianceRatePercent ≤ 100 := by
  set n := results.length with hn
  have hrate0 : 0 ≤ complianceRate n t := by
    unfold complianceRate
    split
    · have ht : (0 : ℚ) < (t : ℚ) := by exact_mod_cast ‹0 < t›
      have hnum : (0 : ℚ) ≤ (t : ℚ) - (n : ℚ) := by
        have : (n : ℚ) ≤ (t : ℚ) := by exact_mod_cast h
        linarith
      positivity
    · norm_num
  have hrate100 : complianceRate n t ≤ 100 := by
    unfold complianceRate
    split
    · have ht : (0 : ℚ) < (t : ℚ) := by exact_mod_cast ‹0 < t›
      have hnum : (n : ℚ) ≥ 0 := by positivity
      rw [div_mul_eq_mul_div, div_le_iff₀ ht]
      ring_nf
      nlinarith
    · norm_num
  have hb1 : 0 ≤ round1 (complianceRate n t) := by
    unfold round1
    have := roundHalfEven_nonneg (q := 10 * complianceRate n t) (by linarith)
    have h10 : (0 : ℚ) ≤ ((roundHalfEven (10 * complianceRate n t) : ℤ) : ℚ) := by
      exact_mod_cast this
    linarith [div_nonneg h10 (by norm_num : (0:ℚ) ≤ 10)]
  have hb2 : round1 (complianceRate n t) ≤ 100 := by
    unfold round1
    have hle : 10 * complianceRate n t ≤ ((1000 : ℤ) : ℚ) := by
      push_cast
      linarith
    have := roundHalfEven_le hle
    have h10 : ((roundHalfEven (10 * complianceRate n t) : ℤ) : ℚ) ≤ 1000 := by
      exact_mod_cast this
    linarith
  refine ⟨?_, ?_, hb1, hb2⟩
  · intro ht
    simp only [reportSummary, complianceRate, if_pos ht, hn]
  · intro ht
    subst ht
    simp only [reportSummary, complianceRate]
    norm_num [round1, roundHalfEven, floorQ]

/-- Witness for C2: one non-compliant result out of four scanned gives a
rate equal to the rounded formula and inside `[0, 100]`. -/
theorem compliance_rate_bounds_witness :
    ([issues0].length ≤ 4) ∧
    ((reportSummary [issues0] 4).complianceRatePercent =
      round1 (((4 : ℚ) - ((1 : Nat) : ℚ)) / (4 : ℚ) * 100)) ∧
    0 ≤ (reportSummary [issues0] 4).complianceRatePercent ∧
    (reportSummary [issues0] 4).complianceRatePercent ≤ 100 :=
  ⟨by decide,
   (compliance_rate_bounds [issues0] 4 (by decide)).1 (by decide),
   (compliance_rate_bounds [issues0] 4 (by decide)).2.2.1,
   (compliance_rate_bounds [issues0] 4 (by decide)).2.2.2⟩

/-! ### C6: category counts sum to the number of violations -/

/-- Sum of the values of a counter dict. -/
def sumVals (m : List (String × Nat)) : Nat :=
  (m.map Prod.snd).sum

/-- Total number of violation strings across a list of results. -/
def totalViolations (results : List Issues) : Nat :=
  (results.map (fun i => i.violations.length)).sum

theorem sumVals_incrCount (m : List (String × Nat)) (k : String) :
    sumVals (incrCount m k) = sumVals m + 1 := by
  induction m with
  | nil => rfl
  | cons hd tl ih =>
      obtain ⟨k', v⟩ := hd
      unfold incrCount
      split
      · simp [sumVals]
        omega
      · simp only [sumVals, List.map_cons, List.sum_cons] at ih ⊢
        omega

theorem addCategories_sum (vs : List String) (m m' : List (String × Nat))
    (h : addCategories m vs = some m') :
    sumVals m' = sumVals m + vs.length := by
  induction vs generalizing m with
  | nil =>
      simp only [addCategories] at h
      cases h
      simp
  | cons v vs ih =>
      simp only [addCategories] at h
      split at h
      · exact absurd h (by simp)
      · have := ih (incrCount m _) h
        rw [this, sumVals_incrCount]
        simp [Nat.add_comm, Nat.add_assoc, Nat.add_left_comm]

theorem issueCategories_sum (results : List Issues)
    (m m' : List (String × Nat)) (h : issueCategories m results = some m') :
    sumVals m' = sumVals m + totalViolations results := by
  induction results generalizing m with
  | nil =>
      simp only [issueCategories] at h
      cases h
      simp [totalViolations]
  | cons issue rest ih =>
      simp only [issueCategories] at h
      split at h
      · exact absurd h (by simp)
      · rename_i m₁ hm₁
        have h1 := addCategories_sum issue.violations m m₁ hm₁
        have h2 := ih m₁ h
        simp only [totalViolations, List.map_cons, List.sum_cons] at h2 ⊢
        omega

/-- C6: whenever `generate_compliance_report`'s category-counting loop
completes (each violation string has a first whitespace-delimited
token), the per-category counts — keyed by that first token,
lower-cased — sum over all categories to the total number of violation
strings across all results. -/
theorem category_counts_sum_to_total (results : List Issues)
    (m : List (String × Nat)) (h : issueCategories [] results = some m) :
    sumVals m = totalViolations results := by
  have := issueCategories_sum results [] m h
  simpa [sumVals] using this

/-- Witness for C6: two concrete results with three violations in total
produce category counts summing to three. -/
theorem category_counts_sum_to_total_witness :
    (issueCategories []
      [{ issues0 with
          violations := ["No README file found", "No .gitignore file found"] },
       { issues0 with violations := ["Repository appears to be empty"] }] =
      some [("no", 2), ("repository", 1)]) ∧
    sumVals [("no", 2), ("repository", 1)] =
      totalViolations
        [{ issues0 with
            violations := ["No README file found", "No .gitignore file found"] },
         { issues0 with violations := ["Repository appears to be empty"] }] :=
  ⟨by decide,
   category_counts_sum_to_total _ _ (by decide)⟩

/-! ### C8: label synchronisation is idempotent in effect -/

/-- The repository label state after the `apply_compliance_labels` loop. -/
def applyLabelsState (state : List GhLabel) (labels : List String) :
    List GhLabel :=
  labels.foldl applyLabelStep state

theorem applyLabelsState_nil (state : List GhLabel) :
    applyLabelsState state [] = state := rfl

theorem apply_compliance_labels_eq (state : List GhLabel)
    (labels : List String) :
    apply_compliance_labels state labels =
      (applyLabelsState state labels, labels.length) := by
  unfold apply_compliance_labels applyLabelsState
  split
  · simp_all
  · suffices haux : ∀ (ls : List String) (s : List GhLabel) (c : Nat),
        ls.foldl (fun acc l => (applyLabelStep acc.1 l, acc.2 + 1)) (s, c) =
          (ls.foldl applyLabelStep s, c + ls.length) by
      simpa using haux labels state 0
    intro ls
    induction ls with
    | nil => simp
    | cons hd tl ih =>
        intro s c
        simp only [List.foldl_cons, ih, List.length_cons, Prod.mk.injEq,
          true_and]
        omega

theorem mem_names_applyLabelStep (s : List GhLabel) (l x : String)
    (hx : x ∈ s.map GhLabel.name) :
    x ∈ (applyLabelStep s l).map GhLabel.name := by
  unfold applyLabelStep
  split
  · exact hx
  · simp only [List.map_append, List.mem_append]
    exact Or.inl hx

theorem self_mem_names_applyLabelStep (s : List GhLabel) (l : String) :
    l ∈ (applyLabelStep s l).map GhLabel.name := by
  unfold applyLabelStep
  split
  · assumption
  · simp [mkGhLabel]

theorem mem_names_applyLabelsState (s : List GhLabel) (ls : List String)
    (x : String) (hx : x ∈ s.map GhLabel.name) :
    x ∈ (applyLabelsState s ls).map GhLabel.name := by
  induction ls generalizing s with
  | nil => exact hx
  | cons hd tl ih =>
      exact ih (applyLabelStep s hd) (mem_names_applyLabelStep s hd x hx)

theorem desired_mem_names_applyLabelsState (ls : List String) :
    ∀ (s : List GhLabel) (l : String), l ∈ ls →
      l ∈ (applyLabelsState s ls).map GhLabel.name := by
  induction ls with
  | nil =>
      intro s l hl
      cases hl
  | cons hd tl ih =>
      intro s l hl
      rcases List.mem_cons.mp hl with h1 | h1
      · subst h1
        exact mem_names_applyLabelsState (applyLabelStep s l) tl l
          (self_mem_names_applyLabelStep s l)
      · exact ih (applyLabelStep s hd) l h1

theorem applyLabelsState_noop (s : List GhLabel) (ls : List String)
    (h : ∀ l ∈ ls, l ∈ s.map GhLabel.name) :
    applyLabelsState s ls = s := by
  induction ls with
  | nil => rfl
  | cons hd tl ih =>
      have hstep : applyLabelStep s hd = s := by
        unfold applyLabelStep
        rw [if_pos (h hd (by simp))]
      show applyLabelsState (applyLabelStep s hd) tl = s
      rw [hstep]
      exact ih fun l hl => h l (by simp [hl])

/-- C8: label synchronisation creates a label only when no existing
label matches the name exactly (case-sensitively), counts every desired
label as a success, and is idempotent in effect: a second run with the
same desired list leaves the repository's label set unchanged and again
reports all labels as successes. -/
theorem apply_labels_idempotent (state : List GhLabel)
    (labels : List String) :
    ((apply_compliance_labels state labels).2 = labels.length) ∧
    (∀ s l, l ∈ s.map GhLabel.name → applyLabelStep s l = s) ∧
    (∀ s l, ¬ l ∈ s.map GhLabel.name →
      applyLabelStep s l = s ++ [mkGhLabel l]) ∧
    (apply_compliance_labels (apply_compliance_labels state labels).1 labels =
      ((apply_compliance_labels state labels).1, labels.length)) := by
  refine ⟨?_, ?_, ?_, ?_⟩
  · rw [apply_compliance_labels_eq]
  · intro s l hl
    unfold applyLabelStep
    rw [if_pos hl]
  · intro s l hl
    unfold applyLabelStep
    rw [if_neg hl]
  · have hno := applyLabelsState_noop (applyLabelsState state labels) labels
      (fun l hl => desired_mem_names_applyLabelsState labels state l hl)
    simp only [apply_compliance_labels_eq, hno]

/-- Witness for C8: a label already present (case-sensitive exact name
match) is not re-created. -/
theorem apply_labels_idempotent_witness :
    ("a" ∈ ([⟨"a", "c", "d"⟩] : List GhLabel).map GhLabel.name) ∧
    applyLabelStep [⟨"a", "c", "d"⟩] "a" = [⟨"a", "c", "d"⟩] :=
  ⟨by decide, (apply_labels_idempotent [] []).2.1 _ _ (by decide)⟩

/-! ### C9: the responsible-user list is short, duplicate-free and
order-preserving -/

theorem dedupAux_nodup (l : List String) :
    ∀ acc : List String, acc.Nodup → (dedupAux acc l).Nodup := by
  induction l with
  | nil =>
      intro acc hacc
      exact hacc
  | cons u us ih =>
      intro acc hacc
      unfold dedupAux
      split
      · exact ih acc hacc
      · rename_i hu
        refine ih (acc ++ [u]) ?_
        simp only [List.nodup_append, List.nodup_cons, List.nodup_nil]
        refine ⟨hacc, by simp, ?_⟩
        intro x hx
        simp only [List.mem_singleton]
        intro hxu
        exact hu (hxu ▸ hx)

theorem dedupAux_sublist (l : List String) :
    ∀ acc : List String, (dedupAux acc l).Sublist (acc ++ l) := by
  induction l with
  | nil =>
      intro acc
      rw [List.append_nil]
      exact List.Sublist.refl _
  | cons u us ih =>
      intro acc
      unfold dedupAux
      split
      · exact (ih acc).trans
          ((List.append_sublist_append_left acc).2 (List.sublist_cons_self u us))
      · have := ih (acc ++ [u])
        rw [List.append_assoc] at this
        simpa using this

/-- C9: for every combination of collaborator lists, CODEOWNERS
contents, recent-commit authors and owner — including tiers whose API
access fails — the responsible-user list has length at most 3, contains
no duplicates, and is a subsequence (first-seen order preserved) of the
raw tier-accumulated list. -/
theorem responsible_users_bounded_nodup (people : RepoPeople) :
    (get_responsible_users people).length ≤ 3 ∧
    (get_responsible_users people).Nodup ∧
    (get_responsible_users people).Sublist (gatherResponsibleUsers people) := by
  refine ⟨?_, ?_, ?_⟩
  · unfold get_responsible_users
    exact le_trans (List.length_take_le 3 _) (le_refl 3)
  · unfold get_responsible_users
    exact (List.take_sublist 3 _).nodup
      (dedupAux_nodup (gatherResponsibleUsers people) [] List.nodup_nil)
  · unfold get_responsible_users
    exact (List.take_sublist 3 _).trans
      (by simpa using dedupAux_sublist (gatherResponsibleUsers people) [])

end ComplianceChecker
